import Mathlib

/-!
Shallow embedding of the melange build orchestrator (pkg/build/build.go)
and a verification of the specification claims against it.

Modelling conventions:
- machine state threaded explicitly; fallible code returns Except or Option;
- external collaborators (the condition evaluator cond.Evaluate, the linter
  callback protocol, the storage listing, the realpath resolver, stat results)
  are inputs to the embedded functions, so theorems quantify over their
  behaviours;
- Go maps are embedded as association lists or as functions String to
  Option String; Go map-merge loops are folds (pointwise deterministic, so
  the unspecified iteration order is immaterial);
- Go slice semantics in ApplyBuildOption (range over a snapshot of the slice
  header while the backing array is mutated and the local slice is truncated)
  are embedded step by step, including the bounds check that panics.
-/

namespace Melange

deriving instance DecidableEq for Except

/-- Kernel-reducible embedding of strings.HasPrefix (Go) and
String.startsWith: whether s starts with the prefix p. -/
def strStarts (p s : String) : Bool := p.data.isPrefixOf s.data

/-- Patch carried by a build option (config.BuildOption): a variables map,
and the package additions and removals of Environment.Contents.Packages. -/
structure BuildOption where
  Vars : List (String × String)
  Add : List String
  Remove : List String
deriving DecidableEq

/-- Subpackage of the recipe: name, optional if-expression, pipeline steps
(steps are opaque to the orchestrator claims, only their count matters). -/
structure Subpackage where
  Name : String
  If : String
  Pipeline : List Unit
deriving DecidableEq

/-- Package block of the recipe (config.Package fields the orchestrator reads). -/
structure Package where
  Name : String
  Version : String
  Epoch : Nat
  TargetArchitecture : List String
  Timeout : Int
  Resources : Option (String × String)
deriving DecidableEq

/-- Parsed recipe (config.Configuration fields the orchestrator reads).
EnvPackages is Environment.Contents.Packages; EnvEnvironment is
Environment.Environment. -/
structure Configuration where
  Package : Package
  EnvPackages : List String
  EnvEnvironment : List (String × String)
  Pipeline : List Unit
  Subpackages : List Subpackage
  Options : List (String × BuildOption)
  Vars : List (String × String)
deriving DecidableEq

/-- The orchestrator state (the Build struct fields consulted by the
embedded operations). Arch is already the APK arch string (Arch.ToAPK());
SourceDateEpoch is already the Unix-seconds integer (time.Time.Unix()). -/
structure Build where
  Configuration : Configuration
  WorkspaceDir : String
  SourceDir : String
  GuestDir : String
  OutDir : String
  CacheDir : String
  CacheSource : String
  Namespace : String
  Arch : String
  SourceDateEpoch : Int
  BinShOverlay : String
  GenerateIndex : Bool
  EmptyWorkspace : Bool
  FailOnLintWarning : Bool
  DebugRunner : Bool
deriving DecidableEq

/-- IsBuildLess (build.go:470-472): true iff the top-level pipeline is empty. -/
def IsBuildLess (b : Build) : Bool := b.Configuration.Pipeline.length == 0

/-- ShouldRun (build.go:591-611): an empty if-field short-circuits to true;
otherwise the condition evaluator (cond.Evaluate, external) decides, and an
evaluator error is wrapped. The evaluator is a parameter ev. -/
def ShouldRun (ev : String → Except String Bool) (sp : Subpackage) : Except String Bool :=
  if sp.If = "" then Except.ok true
  else
    match ev sp.If with
    | Except.error e => Except.error ("evaluating subpackage if-conditional: " ++ e)
    | Except.ok r => Except.ok r

/-!
ApplyBuildOption (build.go:311-339).  The removal loop is

    for _, pkg := range lo.Remove {
        pkgList := b.Configuration.Environment.Contents.Packages
        for pos, ppkg := range pkgList {
            if pkg == ppkg {
                pkgList[pos] = pkgList[len(pkgList)-1]
                pkgList = pkgList[:len(pkgList)-1]
            }
        }
        b.Configuration.Environment.Contents.Packages = pkgList
    }

In Go the range expression is evaluated once: the loop visits positions
0..L0-1 of the ORIGINAL slice header and reads each element from the shared
backing array, which later swap writes mutate; meanwhile the local pkgList
shrinks, so a write pkgList[pos] with pos at or beyond the current length
panics (index out of range).  removeLoop embeds one inner loop: backing is
the backing array restricted to the original length, curLen the current
length of the local slice, pos the range index, fuel the remaining
iteration count; the panic is Option.none. -/
def removeLoop (pkg : String) : Nat → List String → Nat → Nat → Option (List String × Nat)
  | 0, backing, curLen, _ => some (backing, curLen)
  | fuel + 1, backing, curLen, pos =>
    if backing.getD pos "" = pkg then
      if pos < curLen then
        removeLoop pkg fuel (backing.set pos (backing.getD (curLen - 1) "")) (curLen - 1) (pos + 1)
      else none
    else removeLoop pkg fuel backing curLen (pos + 1)

/-- One iteration of the outer removal loop of ApplyBuildOption: run the
inner range loop over the current package list and keep the surviving
prefix of the backing array. -/
def removeOnePass (pkg : String) (l : List String) : Option (List String) :=
  (removeLoop pkg l.length l l.length 0).map (fun st => st.1.take st.2)

/-- The outer removal loop of ApplyBuildOption over lo.Remove. -/
def applyRemovals : List String → List String → Option (List String)
  | l, [] => some l
  | l, r :: rs =>
    match removeOnePass r l with
    | none => none
    | some m => applyRemovals m rs

/-- Merge of the option variables into the recipe variables map
(Go map assignment loop; pointwise last write wins). -/
def mergeVars (base : String → Option String) (entries : List (String × String)) :
    String → Option String :=
  entries.foldl (fun m kv => fun k => if k = kv.1 then some kv.2 else m k) base

/-- ApplyBuildOption (build.go:311-339): merge option variables, append
option-added packages, then run the removal loop.  Option.none is the
runtime panic of the removal loop. -/
def ApplyBuildOption (vars : String → Option String) (pkgs : List String)
    (bo : BuildOption) : Option ((String → Option String) × List String) :=
  let vars2 := mergeVars vars bo.Vars
  let appended := pkgs ++ bo.Add
  (applyRemovals appended bo.Remove).map (fun l => (vars2, l))

/-!
The BuildPackage trace model (build.go:618-945).  BuildPackage is embedded
as a function from the orchestrator state and the external oracles (the
condition evaluator and the linter outcome per package) to either a build
error or the ordered list of effects attempted on the success path.
External operations that the claims do not inspect (guest build, pipeline
step execution, SBOM generation, emission, index writing, workspace
retrieval) are assumed to succeed and contribute one trace action per call;
the two failure sources the claims inspect (if-conditional evaluation and
the lint loop) are embedded with their error propagation.
-/

/-- One observable effect attempted by BuildPackage. -/
inductive Action where
  | populateWorkspace
  | mkdirOut (name : String)
  | buildGuest
  | overlayBinSh
  | populateCache
  | startPod
  | terminatePod
  | runMainPipelineStep
  | runSubPipelineStep (name : String)
  | retrieveWorkspace
  | lintRun (name : String)
  | sbom (name : String)
  | emit (name : String)
  | removeGuestDir
  | removeWorkspaceDir
  | generateIndex (files : List String)
deriving DecidableEq, Repr

/-- Outcome of linter.LintBuild for one package: the issues reported through
the callback, and the execution error of the linter itself (nil or not). -/
structure LintResult where
  warnings : List String
  execErr : Option String
deriving DecidableEq

/-- Errors of the embedded BuildPackage.  lintWarning carries the value the
code wraps with the %w verb at build.go:811 - which is the OUTER err (nil in
that branch), not innerErr, hence Option.none there. -/
inductive BuildErr where
  | ifEval (msg : String)
  | lintError (msg : String)
  | lintWarning (wrapped : Option String)
deriving DecidableEq, Repr

/-- Value of innerErr after the lint callback loop (build.go:801-808): each
reported issue overwrites innerErr when FailOnLintWarning is set, so the
LAST warning is kept; otherwise innerErr stays nil and issues are logged. -/
def lintInnerErr (failOnLintWarning : Bool) (warnings : List String) : Option String :=
  if failOnLintWarning then warnings.getLast? else none

/-- The lint loop of BuildPackage (build.go:795-813) over the linter queue.
An execution error of the linter is fatal with "package linter error";
a retained innerErr is fatal with "package linter warning: %w" applied to
err, which is nil in that branch (the code slip the claims probe). -/
def lintPhase (failOnLintWarning : Bool) (lintO : String → LintResult) :
    List String → Except BuildErr (List Action)
  | [] => Except.ok []
  | n :: rest =>
    match (lintO n).execErr with
    | some e => Except.error (BuildErr.lintError ("package linter error: " ++ e))
    | none =>
      match lintInnerErr failOnLintWarning (lintO n).warnings with
      | some _ => Except.error (BuildErr.lintWarning none)
      | none =>
        match lintPhase failOnLintWarning lintO rest with
        | Except.error e => Except.error e
        | Except.ok tr => Except.ok (Action.lintRun n :: tr)

/-- The subpackage pipeline loop (build.go:752-784).  When not build-less the
if-conditional gates the whole body: a false decision skips the pipeline,
the melange-out mkdir AND the lint enqueue (continue).  When build-less the
conditional is never consulted and every subpackage gets its mkdir and lint
enqueue.  Returns the trace and the enqueued linter-target names. -/
def subpackagesPhase (bl : Bool) (ev : String → Except String Bool) :
    List Subpackage → Except String (List Action × List String)
  | [] => Except.ok ([], [])
  | sp :: rest =>
    if bl then
      match subpackagesPhase bl ev rest with
      | Except.error e => Except.error e
      | Except.ok (tr, q) => Except.ok (Action.mkdirOut sp.Name :: tr, sp.Name :: q)
    else
      match ShouldRun ev sp with
      | Except.error e => Except.error e
      | Except.ok false => subpackagesPhase bl ev rest
      | Except.ok true =>
        match subpackagesPhase bl ev rest with
        | Except.error e => Except.error e
        | Except.ok (tr, q) =>
          Except.ok (sp.Pipeline.map (fun _ => Action.runSubPipelineStep sp.Name) ++
            Action.mkdirOut sp.Name :: tr, sp.Name :: q)

/-- The subpackage SBOM loop (build.go:819-846): when not build-less the
if-conditional gates the SBOM; when build-less every subpackage gets one. -/
def sbomSubsPhase (bl : Bool) (ev : String → Except String Bool) :
    List Subpackage → Except String (List Action)
  | [] => Except.ok []
  | sp :: rest =>
    if bl then
      match sbomSubsPhase bl ev rest with
      | Except.error e => Except.error e
      | Except.ok tr => Except.ok (Action.sbom sp.Name :: tr)
    else
      match ShouldRun ev sp with
      | Except.error e => Except.error e
      | Except.ok false => sbomSubsPhase bl ev rest
      | Except.ok true =>
        match sbomSubsPhase bl ev rest with
        | Except.error e => Except.error e
        | Except.ok tr => Except.ok (Action.sbom sp.Name :: tr)

/-- The subpackage emit loop (build.go:866-881): the if-conditional is
consulted unconditionally (also when build-less). -/
def emitSubsPhase (ev : String → Except String Bool) :
    List Subpackage → Except String (List Action)
  | [] => Except.ok []
  | sp :: rest =>
    match ShouldRun ev sp with
    | Except.error e => Except.error e
    | Except.ok false => emitSubsPhase ev rest
    | Except.ok true =>
      match emitSubsPhase ev rest with
      | Except.error e => Except.error e
      | Except.ok tr => Except.ok (Action.emit sp.Name :: tr)

/-- Emitted archive file name {name}-{version}-r{epoch}.apk (build.go:904,919). -/
def apkFileName (name version : String) (epoch : Nat) : String :=
  name ++ "-" ++ version ++ "-r" ++ toString epoch ++ ".apk"

/-- OutDir/arch, the directory indexed by the index phase (build.go:900). -/
def packageDir (b : Build) : String := b.OutDir ++ "/" ++ b.Arch

/-- The subpackage part of the index file list (build.go:907-921): the
if-conditional is consulted unconditionally (also when build-less). -/
def indexSubsFiles (dir version : String) (epoch : Nat)
    (ev : String → Except String Bool) : List Subpackage → Except String (List String)
  | [] => Except.ok []
  | sp :: rest =>
    match ShouldRun ev sp with
    | Except.error e => Except.error e
    | Except.ok false => indexSubsFiles dir version epoch ev rest
    | Except.ok true =>
      match indexSubsFiles dir version epoch ev rest with
      | Except.error e => Except.error e
      | Except.ok fl => Except.ok ((dir ++ "/" ++ apkFileName sp.Name version epoch) :: fl)

/-- The index phase (build.go:899-942), gated on GenerateIndex. -/
def indexPhase (b : Build) (ev : String → Except String Bool) :
    Except String (List Action) :=
  if b.GenerateIndex then
    match indexSubsFiles (packageDir b) b.Configuration.Package.Version
        b.Configuration.Package.Epoch ev b.Configuration.Subpackages with
    | Except.error e => Except.error e
    | Except.ok fl =>
      Except.ok [Action.generateIndex
        ((packageDir b ++ "/" ++ apkFileName b.Configuration.Package.Name
          b.Configuration.Package.Version b.Configuration.Package.Epoch) :: fl)]
  else Except.ok []

/-- Workspace population and the melange-out mkdir for the main package
(build.go:670-686). -/
def preTrace (b : Build) : List Action :=
  (if b.EmptyWorkspace then [] else [Action.populateWorkspace]) ++
    [Action.mkdirOut b.Configuration.Package.Name]

/-- The container path (build.go:691-744), only when not build-less:
guest build, optional bin-sh overlay, cache population, pod start and the
main pipeline steps. -/
def containerTrace (b : Build) : List Action :=
  if IsBuildLess b then []
  else
    Action.buildGuest ::
      ((if b.BinShOverlay = "" then [] else [Action.overlayBinSh]) ++
        (Action.populateCache :: Action.startPod ::
          b.Configuration.Pipeline.map (fun _ => Action.runMainPipelineStep)))

/-- The main package is enqueued for lint only on the container path
(build.go:738-743). -/
def mainLintQueue (b : Build) : List String :=
  if IsBuildLess b then [] else [b.Configuration.Package.Name]

/-- Guest and workspace cleanup (build.go:883-896), warn-only. -/
def cleanupTrace (b : Build) : List Action :=
  (if IsBuildLess b then [] else [Action.removeGuestDir]) ++ [Action.removeWorkspaceDir]

/-- The deferred pod termination (build.go:721-727): registered only on the
container path and skipped when DebugRunner is set; it runs on return. -/
def teardownTrace (b : Build) : List Action :=
  if IsBuildLess b || b.DebugRunner then [] else [Action.terminatePod]

/-- BuildPackage (build.go:618-945) as a trace function: the phases in
program order, with the if-conditional and lint failure points embedded. -/
def BuildPackage (b : Build) (ev : String → Except String Bool)
    (lintO : String → LintResult) : Except BuildErr (List Action) :=
  match subpackagesPhase (IsBuildLess b) ev b.Configuration.Subpackages with
  | Except.error e => Except.error (BuildErr.ifEval e)
  | Except.ok (subTr, subQueue) =>
    match lintPhase b.FailOnLintWarning lintO (mainLintQueue b ++ subQueue) with
    | Except.error e => Except.error e
    | Except.ok lintTr =>
      match sbomSubsPhase (IsBuildLess b) ev b.Configuration.Subpackages with
      | Except.error e => Except.error (BuildErr.ifEval e)
      | Except.ok sbomTr =>
        match emitSubsPhase ev b.Configuration.Subpackages with
        | Except.error e => Except.error (BuildErr.ifEval e)
        | Except.ok emitTr =>
          match indexPhase b ev with
          | Except.error e => Except.error (BuildErr.ifEval e)
          | Except.ok idxTr =>
            Except.ok (preTrace b ++ containerTrace b ++ subTr ++
              (Action.retrieveWorkspace :: lintTr) ++
              (sbomTr ++ [Action.sbom b.Configuration.Package.Name]) ++
              (Action.emit b.Configuration.Package.Name :: emitTr) ++
              cleanupTrace b ++ idxTr ++ teardownTrace b)

/-!
Per-phase if-decision gates, read off the five places BuildPackage consults
(or bypasses) a subpackage if-conditional:
- pipeline loop, build.go:754-764: steps run iff not build-less and the
  conditional holds;
- lint enqueue, build.go:754-783: enqueued unconditionally when build-less,
  otherwise gated by the same conditional (the continue skips the enqueue);
- SBOM loop, build.go:822-832: generated unconditionally when build-less,
  otherwise gated;
- emit loop, build.go:866-881: always gated;
- index file list, build.go:907-921: always gated.
-/

/-- Whether the pipeline phase runs the steps of a subpackage. -/
def subPipelineDecision (bl : Bool) (ev : String → Except String Bool)
    (sp : Subpackage) : Except String Bool :=
  if bl then Except.ok false else ShouldRun ev sp

/-- Whether the subpackage loop enqueues a linter target for a subpackage. -/
def lintEnqueueDecision (bl : Bool) (ev : String → Except String Bool)
    (sp : Subpackage) : Except String Bool :=
  if bl then Except.ok true else ShouldRun ev sp

/-- Whether the SBOM phase generates an SBOM for a subpackage. -/
def sbomDecision (bl : Bool) (ev : String → Except String Bool)
    (sp : Subpackage) : Except String Bool :=
  if bl then Except.ok true else ShouldRun ev sp

/-- Whether the emit phase emits a subpackage. -/
def emitDecision (_bl : Bool) (ev : String → Except String Bool)
    (sp : Subpackage) : Except String Bool :=
  ShouldRun ev sp

/-- Whether the index phase lists the archive of a subpackage. -/
def indexDecision (_bl : Bool) (ev : String → Except String Bool)
    (sp : Subpackage) : Except String Bool :=
  ShouldRun ev sp

/-!
Workspace retriever (build.go:1052-1139).  The gzip-wrapped tar stream from
the runner is embedded as Option (List TarHeader): Option.none is the nil
reader returned by Runner.WorkspaceTar, and the list is the decoded entry
sequence up to EOF.  The workspace filesystem (apkofs.FullFS rooted at the
workspace dir) is a flat map from path strings to nodes plus a list of
extended attributes; Stat is lstat-like (the code relies on it reporting
the symlink mode bit, build.go:1082).
-/

/-- Filesystem node: directory, regular file (mode and byte size), symlink. -/
inductive FNode where
  | dir (mode : Nat)
  | file (mode : Nat) (size : Nat)
  | symlink (target : String)
deriving DecidableEq

/-- Workspace filesystem state. -/
structure FS where
  nodes : List (String × FNode)
  xattrs : List (String × String × String)
deriving DecidableEq

/-- Path lookup (newest entry wins). -/
def fsLookup (fs : FS) (p : String) : Option FNode :=
  (fs.nodes.find? (fun kv => kv.1 == p)).map (fun kv => kv.2)

/-- Insert or overwrite a node. -/
def fsInsert (fs : FS) (p : String) (n : FNode) : FS :=
  { fs with nodes := (p, n) :: fs.nodes }

/-- fs.Readlink. -/
def fsReadlink (fs : FS) (p : String) : Except String String :=
  match fsLookup fs p with
  | some (FNode.symlink t) => Except.ok t
  | some _ => Except.error "invalid argument"
  | none => Except.error "no such file or directory"

/-- fs.MkdirAll with the header mode: existing directory (also through a
symlink) is accepted, an existing non-directory fails. -/
def fsMkdirAll (fs : FS) (p : String) (mode : Nat) : Except String FS :=
  match fsLookup fs p with
  | some (FNode.dir _) => Except.ok fs
  | some (FNode.symlink t) =>
    match fsLookup fs t with
    | some (FNode.dir _) => Except.ok fs
    | _ => Except.error "not a directory"
  | some _ => Except.error "not a directory"
  | none => Except.ok (fsInsert fs p (FNode.dir mode))

/-- fs.OpenFile with O_CREATE, O_EXCL and O_WRONLY followed by the CopyN of
header.Size bytes: fails if the path exists in any form. -/
def fsCreateExcl (fs : FS) (p : String) (mode : Nat) (size : Nat) : Except String FS :=
  match fsLookup fs p with
  | some _ => Except.error "file exists"
  | none => Except.ok (fsInsert fs p (FNode.file mode size))

/-- fs.Symlink linkname name. -/
def fsSymlink (fs : FS) (linkname name : String) : Except String FS :=
  match fsLookup fs name with
  | some _ => Except.error "file exists"
  | none => Except.ok (fsInsert fs name (FNode.symlink linkname))

/-- fs.Link linkname name (hard link: the target node is shared). -/
def fsLink (fs : FS) (linkname name : String) : Except String FS :=
  match fsLookup fs linkname with
  | none => Except.error "no such file or directory"
  | some n =>
    match fsLookup fs name with
    | some _ => Except.error "file exists"
    | none => Except.ok (fsInsert fs name n)

/-- fs.SetXattr. -/
def fsSetXattr (fs : FS) (p attr : String) (v : String) : Except String FS :=
  match fsLookup fs p with
  | none => Except.error "no such file or directory"
  | some _ => Except.ok { fs with xattrs := (p, attr, v) :: fs.xattrs }

/-- Tar entry type flag; other carries the raw byte of an unhandled flag. -/
inductive TarType where
  | dir
  | reg
  | symlink
  | link
  | other (code : Nat)
deriving DecidableEq

/-- Decoded tar header with its PAX records. -/
structure TarHeader where
  typeflag : TarType
  name : String
  linkname : String
  mode : Nat
  size : Nat
  paxRecords : List (String × String)
deriving DecidableEq

/-- The PAX record scan after each entry (build.go:1126-1135): every key
prefixed SCHILY.xattr. sets the extended attribute named by the stripped key. -/
def applyPax (fs : FS) (name : String) : List (String × String) → Except String FS
  | [] => Except.ok fs
  | (k, v) :: rest =>
    if strStarts "SCHILY.xattr." k then
      match fsSetXattr fs name (k.drop "SCHILY.xattr.".length) v with
      | Except.error e => Except.error e
      | Except.ok fs2 => applyPax fs2 name rest
    else applyPax fs name rest

/-- Processing of one tar entry (the switch of build.go:1080-1124 followed
by the PAX scan).  The symlink skip uses continue, so it bypasses the PAX
scan; the directory accept uses break, so the PAX scan still runs. -/
def processEntry (fs : FS) (hdr : TarHeader) : Except String FS :=
  match hdr.typeflag with
  | TarType.dir =>
    let accepted :=
      match fsLookup fs hdr.name with
      | some (FNode.symlink t) =>
        (match fsLookup fs t with
         | some (FNode.dir _) => true
         | _ => false)
      | _ => false
    if accepted then applyPax fs hdr.name hdr.paxRecords
    else
      match fsMkdirAll fs hdr.name hdr.mode with
      | Except.error e =>
        Except.error ("unable to create directory " ++ hdr.name ++ ": " ++ e)
      | Except.ok fs2 => applyPax fs2 hdr.name hdr.paxRecords
  | TarType.reg =>
    match fsCreateExcl fs hdr.name hdr.mode hdr.size with
    | Except.error e => Except.error ("unable to open file " ++ hdr.name ++ ": " ++ e)
    | Except.ok fs2 => applyPax fs2 hdr.name hdr.paxRecords
  | TarType.symlink =>
    match fsReadlink fs hdr.name with
    | Except.ok t =>
      if t = hdr.linkname then Except.ok fs
      else
        match fsSymlink fs hdr.linkname hdr.name with
        | Except.error e =>
          Except.error ("unable to create symlink " ++ hdr.name ++ " -> " ++
            hdr.linkname ++ ": " ++ e)
        | Except.ok fs2 => applyPax fs2 hdr.name hdr.paxRecords
    | Except.error _ =>
      match fsSymlink fs hdr.linkname hdr.name with
      | Except.error e =>
        Except.error ("unable to create symlink " ++ hdr.name ++ " -> " ++
          hdr.linkname ++ ": " ++ e)
      | Except.ok fs2 => applyPax fs2 hdr.name hdr.paxRecords
  | TarType.link =>
    match fsLink fs hdr.linkname hdr.name with
    | Except.error e => Except.error e
    | Except.ok fs2 => applyPax fs2 hdr.name hdr.paxRecords
  | TarType.other c =>
    Except.error ("unexpected tar type " ++ toString c ++ " for " ++ hdr.name)

/-- The entry loop until EOF. -/
def processEntries (fs : FS) : List TarHeader → Except String FS
  | [] => Except.ok fs
  | h :: rest =>
    match processEntry fs h with
    | Except.error e => Except.error e
    | Except.ok fs2 => processEntries fs2 rest

/-- RetrieveWorkspace (build.go:1052-1139): a nil stream from the runner is
success with the workspace untouched; otherwise every decoded entry is
processed in order. -/
def RetrieveWorkspace (stream : Option (List TarHeader)) (fs : FS) : Except String FS :=
  match stream with
  | none => Except.ok fs
  | some entries => processEntries fs entries

/-- Tar entry types the switch handles; everything else hits the default
unexpected-tar-type branch. -/
def handledTarType : TarType → Bool
  | TarType.other _ => false
  | _ => true

/-!
Container configuration assembler (build.go:987-1047).  External inputs:
cacheStat is the os.Stat outcome on CacheDir (none: stat error, some b:
exists with IsDir = b); realpathRes and realpathFailed are the two return
values of the external realpath.Realpath call - the code uses realpathRes
as the mount source whether or not the call failed.
-/

/-- container.DefaultWorkspaceDir. Modelled from the spec: the default
workspace path constant of the container package (value not under src). -/
def DefaultWorkspaceDir : String := "/home/build"

/-- container.DefaultResolvConfPath. Modelled from the spec: the default
resolv.conf path constant of the container package (value not under src). -/
def DefaultResolvConfPath : String := "/etc/resolv.conf"

/-- container.DefaultCacheDir. Modelled from the spec: the default cache
path constant of the container package (value not under src). -/
def DefaultCacheDir : String := "/var/cache/melange"

/-- Assembled container.Config fields the claims consult. -/
structure ContainerConfig where
  Arch : String
  PackageName : String
  Mounts : List (String × String)
  CapNetworking : Bool
  Environment : String → Option String
  CPU : Option String
  Memory : Option String
  Timeout : Int

/-- buildWorkspaceConfig (build.go:987-1039) returning the config and the
log lines of the cache-dir branch.  Build-less: a minimal config holding
only the arch.  Otherwise: workspace and resolv.conf mounts; the cache
mount is added with the realpath result as source whenever CacheDir is set,
exists and is a directory (realpath failure only logs), and skipped with a
log line otherwise; SOURCE_DATE_EPOCH is written first into the environment
map and the recipe environment entries are merged over it afterwards. -/
def buildWorkspaceConfig (b : Build) (cacheStat : Option Bool)
    (realpathRes : String) (realpathFailed : Bool) : ContainerConfig × List String :=
  if IsBuildLess b then
    ({ Arch := b.Arch, PackageName := "", Mounts := [], CapNetworking := false,
       Environment := fun _ => none, CPU := none, Memory := none, Timeout := 0 }, [])
  else
    let baseMounts := [(b.WorkspaceDir, DefaultWorkspaceDir),
                       ("/etc/resolv.conf", DefaultResolvConfPath)]
    let cacheBranch : List (String × String) × List String :=
      if b.CacheDir = "" then ([], [])
      else
        match cacheStat with
        | some true =>
          ([(realpathRes, DefaultCacheDir)],
           if realpathFailed then ["could not resolve path for --cache-dir"] else [])
        | _ => ([], ["--cache-dir " ++ b.CacheDir ++ " not a dir; skipping"])
    ({ Arch := b.Arch,
       PackageName := b.Configuration.Package.Name,
       Mounts := baseMounts ++ cacheBranch.1,
       CapNetworking := true,
       Environment := mergeVars
         (fun k => if k = "SOURCE_DATE_EPOCH" then some (toString b.SourceDateEpoch) else none)
         b.Configuration.EnvEnvironment,
       CPU := b.Configuration.Package.Resources.map (fun r => r.1),
       Memory := b.Configuration.Package.Resources.map (fun r => r.2),
       Timeout := b.Configuration.Package.Timeout }, cacheBranch.2)

/-- Modelled from the spec: util.SourceDateEpoch (not under src) resolves
the effective epoch at construction; when the process environment carries a
parsed SOURCE_DATE_EPOCH value it wins, otherwise the configured value is
kept (build.go:188-195). -/
def resolveSourceDateEpoch (envParsed : Option Int) (configured : Int) : Int :=
  match envParsed with
  | some t => t
  | none => configured

/-!
Cache populator (build.go:416-465 fetchBucket, build.go:474-548
PopulateCache).  External inputs: the object listing under the bucket
prefix, the membership map derived from the recipe (cacheItemsForBuild,
not under src, is the parameter cmm), and the on-disk mode of each staged
file after os.Create.
-/

/-- Base name of a slash-separated path (filepath.Base on the walk name;
fi.Name() is already the base, and Base is idempotent). -/
def basename (p : String) : String := (p.splitOn "/").getLastD p

/-- Whether a staged file basename is digest-named (build.go:531-535). -/
def digestNamed (n : String) : Bool :=
  strStarts "sha256:" (basename n) || strStarts "sha512:" (basename n)

/-- fetchBucket (build.go:416-465) on the success path: the listed objects
whose names pass the membership map are streamed into the staging dir. -/
def fetchBucket (listing : List String) (cmm : String → Bool) : List String :=
  listing.filter cmm

/-- Observable outcome of PopulateCache. -/
structure PopulateCacheResult where
  downloaded : List String
  copied : List (String × Nat)
  stagingRemoved : Bool
deriving DecidableEq

/-- PopulateCache (build.go:474-548): no-op when CacheDir is empty or the
source is not a gs:// URI; otherwise fetch the membership-filtered listing
into staging, walk the staged regular files, copy only the digest-named
ones into CacheDir preserving their permission bits (stagedMode), and
remove the staging directory. -/
def PopulateCache (cacheDir cacheSource : String) (listing : List String)
    (cmm : String → Bool) (stagedMode : String → Nat) : PopulateCacheResult :=
  if cacheDir = "" then { downloaded := [], copied := [], stagingRemoved := false }
  else if strStarts "gs://" cacheSource then
    let staged := fetchBucket listing cmm
    { downloaded := staged,
      copied := (staged.filter digestNamed).map (fun n => (cacheDir ++ "/" ++ n, stagedMode n)),
      stagingRemoved := true }
  else { downloaded := [], copied := [], stagingRemoved := false }

/-!
Constructor (build.go:101-214), from the point where the recipe is parsed.
External inputs: the APK string of the current arch, the raw
SOURCE_DATE_EPOCH environment value with its parser (util.SourceDateEpoch,
not under src), runner usability, and the enabled option names.
-/

/-- Errors of the post-parse constructor steps.  optionPanic stands for the
runtime panic of the ApplyBuildOption removal loop. -/
inductive NewErr where
  | skipThisArch
  | epochParse
  | runnerUnusable
  | optionPanic
deriving DecidableEq

/-- The deprecation-warning branch condition (build.go:180-182):
target-architecture is the single element all. -/
def targetArchWarns (tas : List String) : Bool :=
  tas.length == 1 && tas.getD 0 "" == "all"

/-- The skip-this-arch branch condition (build.go:183-186): the list is
non-empty and the set built from it does not contain the current APK arch. -/
def archGate (tas : List String) (apk : String) : Bool :=
  if targetArchWarns tas then false
  else if tas.length ≠ 0 ∧ apk ∉ tas then true
  else false

/-- The build-option application loop of New (build.go:203-211): each
enabled name found in the recipe options map is applied in order; a missing
name is skipped. -/
def applyEnabledOptions (vars : String → Option String) (pkgs : List String)
    (options : List (String × BuildOption)) : List String → Option (List String)
  | [] => some pkgs
  | name :: rest =>
    match options.find? (fun kv => kv.1 == name) with
    | none => applyEnabledOptions vars pkgs options rest
    | some kv =>
      match ApplyBuildOption vars pkgs kv.2 with
      | none => none
      | some res => applyEnabledOptions res.1 res.2 options rest

/-- The constructor steps after the arch check: epoch resolution
(build.go:188-195), runner usability (build.go:198-200), option
application (build.go:203-211); returns the resolved epoch and the final
environment package list. -/
def newRest (cfg : Configuration) (envEpochRaw : Option String)
    (parseEpoch : String → Option Int) (configuredEpoch : Int)
    (runnerUsable : Bool) (enabled : List String) : Except NewErr (Int × List String) :=
  match (match envEpochRaw with
         | some s => parseEpoch s
         | none => some configuredEpoch) with
  | none => Except.error NewErr.epochParse
  | some epoch =>
    if runnerUsable then
      match applyEnabledOptions
          (fun k => (cfg.Vars.find? (fun kv => kv.1 == k)).map (fun kv => kv.2))
          cfg.EnvPackages cfg.Options enabled with
      | none => Except.error NewErr.optionPanic
      | some pkgs => Except.ok (epoch, pkgs)
    else Except.error NewErr.runnerUnusable

/-- New (build.go:101-214) from the parsed recipe on: warn or skip on the
target-architecture check, then the remaining construction steps. -/
def New (cfg : Configuration) (apk : String) (envEpochRaw : Option String)
    (parseEpoch : String → Option Int) (configuredEpoch : Int)
    (runnerUsable : Bool) (enabled : List String) : Except NewErr (Int × List String) :=
  if archGate cfg.Package.TargetArchitecture apk then Except.error NewErr.skipThisArch
  else newRest cfg envEpochRaw parseEpoch configuredEpoch runnerUsable enabled

/-!
Concrete instances used by counterexamples and witnesses.
-/

/-- Evaluator mapping every if-expression to false. -/
def evFalse : String → Except String Bool := fun _ => Except.ok false

/-- Evaluator mapping every if-expression to true. -/
def evTrue : String → Except String Bool := fun _ => Except.ok true

/-- Linter oracle reporting nothing. -/
def lintQuiet : String → LintResult := fun _ => { warnings := [], execErr := none }

/-- Linter oracle reporting two issues and no execution error. -/
def lintWarn2 : String → LintResult := fun _ => { warnings := ["w1", "w2"], execErr := none }

/-- Linter oracle failing with an execution error. -/
def lintExecFail : String → LintResult := fun _ => { warnings := [], execErr := some "boom" }

/-- Build-less recipe: empty top-level pipeline, one subpackage s with an
empty if-field. -/
def cfgBL : Configuration :=
  { Package := { Name := "lib", Version := "1.0", Epoch := 0, TargetArchitecture := [],
                 Timeout := 0, Resources := none },
    EnvPackages := [], EnvEnvironment := [], Pipeline := [],
    Subpackages := [{ Name := "s", If := "", Pipeline := [] }],
    Options := [], Vars := [] }

/-- Build-less orchestrator state over cfgBL. -/
def bBL : Build :=
  { Configuration := cfgBL, WorkspaceDir := "/w", SourceDir := ".", GuestDir := "",
    OutDir := "out", CacheDir := "", CacheSource := "", Namespace := "",
    Arch := "x86_64", SourceDateEpoch := 0, BinShOverlay := "",
    GenerateIndex := false, EmptyWorkspace := true, FailOnLintWarning := false,
    DebugRunner := false }

/-- Build-less state whose subpackage carries the if-expression c. -/
def bC1 : Build :=
  { bBL with Configuration :=
    { cfgBL with Subpackages := [{ Name := "s", If := "c", Pipeline := [] }] } }

/-- Success trace of the embedded BuildPackage on bC1 with a false evaluator. -/
def c1Trace : List Action := (BuildPackage bC1 evFalse lintQuiet).toOption.getD []

/-- Success trace of the embedded BuildPackage on bBL. -/
def c2Trace : List Action := (BuildPackage bBL evFalse lintQuiet).toOption.getD []

/-- Non-build-less state whose recipe environment itself sets
SOURCE_DATE_EPOCH. -/
def bEnvClash : Build :=
  { bBL with
    Configuration :=
      { cfgBL with
        Pipeline := [()]
        Subpackages := []
        EnvEnvironment := [("SOURCE_DATE_EPOCH", "banana")] } }

/-- Non-build-less state with a cache dir named c. -/
def bCacheFail : Build :=
  { bBL with
    CacheDir := "c"
    Configuration :=
      { cfgBL with
        Pipeline := [()]
        Subpackages := [] } }

/-- Empty workspace filesystem. -/
def fs0 : FS := { nodes := [], xattrs := [] }

/-- Filesystem already holding the symlink l pointing at t. -/
def fsSym : FS := { nodes := [("l", FNode.symlink "t")], xattrs := [] }

/-- Tar entry with an unhandled type flag (103 is the GNU dump dir flag D). -/
def hdrBad : TarHeader :=
  { typeflag := TarType.other 103, name := "f", linkname := "", mode := 0, size := 0,
    paxRecords := [] }

/-- Symlink tar entry matching the existing symlink of fsSym. -/
def hdrSym : TarHeader :=
  { typeflag := TarType.symlink, name := "l", linkname := "t", mode := 0, size := 0,
    paxRecords := [] }

/-!
Helper lemmas (shared; not tied to any single claim).
-/

/-- Looking up a key absent from the merged entries falls through to the
base map. -/
theorem mergeVars_lookup_of_absent (base : String → Option String)
    (es : List (String × String)) (k : String) (h : ∀ kv ∈ es, kv.1 ≠ k) :
    mergeVars base es k = base k := by
  induction es generalizing base with
  | nil => rfl
  | cons kv rest ih =>
    have h1 : kv.1 ≠ k := h kv (List.mem_cons_self kv rest)
    calc mergeVars base (kv :: rest) k
        = mergeVars (fun k2 => if k2 = kv.1 then some kv.2 else base k2) rest k := rfl
      _ = (fun k2 => if k2 = kv.1 then some kv.2 else base k2) k :=
          ih _ (fun x hx => h x (List.mem_cons_of_mem kv hx))
      _ = base k := by simp [Ne.symm h1]

/-- The warn condition holds exactly on the single-element list all. -/
theorem targetArchWarns_iff (tas : List String) : targetArchWarns tas = true ↔ tas = ["all"] := by
  match tas with
  | [] => simp [targetArchWarns]
  | [a] => simp [targetArchWarns]
  | a :: b :: r => simp [targetArchWarns]

/-- The skip branch condition in terms of the claim predicate. -/
theorem archGate_iff (tas : List String) (apk : String) :
    archGate tas apk = true ↔ (tas ≠ [] ∧ tas ≠ ["all"] ∧ apk ∉ tas) := by
  unfold archGate
  by_cases hw : targetArchWarns tas = true
  · rw [if_pos hw]
    have : tas = ["all"] := (targetArchWarns_iff tas).mp hw
    subst this
    simp
  · rw [if_neg hw]
    by_cases hc : tas.length ≠ 0 ∧ apk ∉ tas
    · rw [if_pos hc]
      have hne : tas ≠ [] := by
        intro h0
        exact hc.1 (by simp [h0])
      have hnall : tas ≠ ["all"] := by
        intro h0
        exact hw ((targetArchWarns_iff tas).mpr h0)
      simp [hne, hnall, hc.2]
    · rw [if_neg hc]
      constructor
      · intro h0; cases h0
      · intro h0
        exact absurd ⟨by simp [h0.1], h0.2.2⟩ hc

/-- The post-arch-check construction never yields the skip sentinel. -/
theorem newRest_ne_skip (cfg : Configuration) (envEpochRaw : Option String)
    (parseEpoch : String → Option Int) (configuredEpoch : Int)
    (runnerUsable : Bool) (enabled : List String) :
    newRest cfg envEpochRaw parseEpoch configuredEpoch runnerUsable enabled ≠
      Except.error NewErr.skipThisArch := by
  intro h
  unfold newRest at h
  split at h
  · simp at h
  · split at h
    · split at h
      · simp at h
      · simp at h
    · simp at h

/-- Processing an entry successfully implies its type flag is handled. -/
theorem processEntry_ok_handled (fs fs2 : FS) (hdr : TarHeader)
    (h : processEntry fs hdr = Except.ok fs2) : handledTarType hdr.typeflag = true := by
  cases ht : hdr.typeflag with
  | other c => rw [processEntry, ht] at h; simp at h
  | dir => rfl
  | reg => rfl
  | symlink => rfl
  | link => rfl

/-- getD inside the left part of an append. -/
theorem getD_append_left (A B : List String) (j : Nat) (d : String) (h : j < A.length) :
    (A ++ B).getD j d = A.getD j d := by
  induction A generalizing j with
  | nil => simp at h
  | cons a rest ih =>
    cases j with
    | zero => rfl
    | succ k =>
      simp only [List.cons_append, List.getD_cons_succ]
      exact ih k (by simp at h; omega)

/-- getD at the junction position of an append. -/
theorem getD_append_at (A : List String) (x : String) (B : List String) (d : String) :
    (A ++ x :: B).getD A.length d = x := by
  induction A with
  | nil => rfl
  | cons a rest ih =>
    simp only [List.cons_append, List.length_cons, List.getD_cons_succ]
    exact ih

/-- getD offset into the right part of an append. -/
theorem getD_append_right_add (A B : List String) (j : Nat) (d : String) :
    (A ++ B).getD (A.length + j) d = B.getD j d := by
  induction A with
  | nil => simp
  | cons a rest ih =>
    simp only [List.cons_append, List.length_cons]
    rw [show rest.length + 1 + j = (rest.length + j) + 1 by omega, List.getD_cons_succ]
    exact ih

/-- getD within bounds is a member. -/
theorem getD_mem (l : List String) (j : Nat) (d : String) (h : j < l.length) :
    l.getD j d ∈ l := by
  induction l generalizing j with
  | nil => simp at h
  | cons a rest ih =>
    cases j with
    | zero => exact List.mem_cons_self a rest
    | succ k =>
      rw [List.getD_cons_succ]
      exact List.mem_cons_of_mem a (ih k (by simp at h; omega))

/-- Setting beyond the taken prefix does not change the prefix. -/
theorem take_set_of_le (l : List String) (i : Nat) (v : String) (n : Nat) (h : n ≤ i) :
    (l.set i v).take n = l.take n := by
  induction l generalizing i n with
  | nil => rfl
  | cons a rest ih =>
    cases i with
    | zero =>
      cases n with
      | zero => rfl
      | succ m => omega
    | succ k =>
      cases n with
      | zero => rfl
      | succ m =>
        simp only [List.set_cons_succ, List.take_succ_cons]
        rw [ih k m (by omega)]

/-- Setting at the junction position of an append. -/
theorem set_append_at (A : List String) (x : String) (B : List String) (v : String) :
    (A ++ x :: B).set A.length v = A ++ v :: B := by
  induction A with
  | nil => rfl
  | cons a rest ih =>
    simp only [List.cons_append, List.length_cons, List.set_cons_succ]
    rw [ih]

/-- The range loop leaves the state alone over a match-free stretch. -/
theorem removeLoop_skip (pkg : String) :
    ∀ (n : Nat) (backing : List String) (curLen pos : Nat),
    (∀ i, pos ≤ i → i < pos + n → backing.getD i "" ≠ pkg) →
    removeLoop pkg n backing curLen pos = some (backing, curLen) := by
  intro n
  induction n with
  | zero => intro backing curLen pos _; rfl
  | succ m ih =>
    intro backing curLen pos h
    have hp : ¬(backing.getD pos "" = pkg) := h pos (Nat.le_refl pos) (by omega)
    unfold removeLoop
    rw [if_neg hp]
    exact ih backing curLen (pos + 1) (fun i h1 h2 => h i (by omega) (by omega))

/-- One step of the range loop (the inner for body of build.go:328-333). -/
theorem removeLoop_succ (pkg : String) (f : Nat) (b : List String) (c p : Nat) :
    removeLoop pkg (f + 1) b c p =
      if b.getD p "" = pkg then
        (if p < c then removeLoop pkg f (b.set p (b.getD (c - 1) "")) (c - 1) (p + 1)
         else none)
      else removeLoop pkg f b c (p + 1) := rfl

/-- The range loop splits along its fuel. -/
theorem removeLoop_split (pkg : String) :
    ∀ (m n : Nat) (backing : List String) (curLen pos : Nat),
    removeLoop pkg (m + n) backing curLen pos =
      match removeLoop pkg m backing curLen pos with
      | none => none
      | some st => removeLoop pkg n st.1 st.2 (pos + m) := by
  intro m
  induction m with
  | zero =>
    intro n backing curLen pos
    simp [removeLoop]
  | succ k ih =>
    intro n backing curLen pos
    rw [show k + 1 + n = (k + n) + 1 by omega, removeLoop_succ pkg (k + n),
      removeLoop_succ pkg k]
    by_cases hc : backing.getD pos "" = pkg
    · simp only [if_pos hc]
      by_cases hp : pos < curLen
      · simp only [if_pos hp]
        rw [show pos + (k + 1) = (pos + 1) + k by omega]
        exact ih n _ _ (pos + 1)
      · simp only [if_neg hp]
    · simp only [if_neg hc]
      rw [show pos + (k + 1) = (pos + 1) + k by omega]
      exact ih n backing curLen (pos + 1)

/-- One removal pass on a list holding at most one occurrence of the name
succeeds and permutes to erasing that occurrence. -/
theorem removeOnePass_perm (pkg : String) (l : List String) (h : l.count pkg ≤ 1) :
    ∃ m, removeOnePass pkg l = some m ∧ List.Perm m (l.erase pkg) := by
  by_cases hm : pkg ∈ l
  case neg =>
    have hne : removeLoop pkg l.length l l.length 0 = some (l, l.length) := by
      apply removeLoop_skip
      intro i _ hi hcontra
      exact hm (hcontra ▸ getD_mem l i "" (by omega))
    refine ⟨l, ?_, ?_⟩
    · unfold removeOnePass
      rw [hne]
      simp [List.take_length]
    · rw [List.erase_of_not_mem hm]
  case pos =>
    obtain ⟨s, t, rfl⟩ := List.append_of_mem hm
    have hcs : (s ++ pkg :: t).count pkg = s.count pkg + (t.count pkg + 1) := by
      simp [List.count_append]
    have hs0 : s.count pkg = 0 := by omega
    have ht0 : t.count pkg = 0 := by omega
    have hspkg : pkg ∉ s := List.count_eq_zero.mp hs0
    have htpkg : pkg ∉ t := List.count_eq_zero.mp ht0
    have herase : (s ++ pkg :: t).erase pkg = s ++ t := by
      rw [List.erase_append_right _ hspkg, List.erase_cons_head]
    have hlen : (s ++ pkg :: t).length = s.length + (t.length + 1) := by simp
    have hskip1 : removeLoop pkg s.length (s ++ pkg :: t) (s.length + (t.length + 1)) 0 =
        some (s ++ pkg :: t, s.length + (t.length + 1)) := by
      apply removeLoop_skip
      intro i _ hi hcontra
      rw [getD_append_left s (pkg :: t) i "" (by omega)] at hcontra
      exact hspkg (hcontra ▸ getD_mem s i "" (by omega))
    have hread : (s ++ pkg :: t).getD s.length "" = pkg := getD_append_at s pkg t ""
    unfold removeOnePass
    rw [hlen, removeLoop_split pkg s.length (t.length + 1), hskip1]
    dsimp only []
    rw [Nat.zero_add, removeLoop_succ pkg t.length]
    rw [if_pos hread, if_pos (by omega : s.length < s.length + (t.length + 1))]
    rcases List.eq_nil_or_concat t with ht | ⟨t2, z, ht⟩
    · subst ht
      rw [show s.length + (List.length [] + 1) - 1 = s.length by simp]
      rw [hread, set_append_at s pkg [] pkg]
      dsimp only [List.length_nil]
      rw [show removeLoop pkg 0 (s ++ [pkg]) s.length (s.length + 1) =
        some (s ++ [pkg], s.length) from rfl]
      refine ⟨s, ?_, ?_⟩
      · simp [List.take_left]
      · rw [herase]
        simp
    · rw [List.concat_eq_append] at ht
      subst ht
      have hglast : (s ++ pkg :: (t2 ++ [z])).getD
          (s.length + ((t2 ++ [z]).length + 1) - 1) "" = z := by
        rw [show s ++ pkg :: (t2 ++ [z]) = (s ++ pkg :: t2) ++ z :: [] by simp]
        rw [show s.length + ((t2 ++ [z]).length + 1) - 1 = (s ++ pkg :: t2).length by simp]
        exact getD_append_at (s ++ pkg :: t2) z [] ""
      rw [hglast, set_append_at s pkg (t2 ++ [z]) z]
      have hskip2 : removeLoop pkg (t2 ++ [z]).length (s ++ z :: (t2 ++ [z]))
          (s.length + ((t2 ++ [z]).length + 1) - 1) (s.length + 1) =
          some (s ++ z :: (t2 ++ [z]), s.length + ((t2 ++ [z]).length + 1) - 1) := by
        apply removeLoop_skip
        intro i hlow hi hcontra
        rw [show s ++ z :: (t2 ++ [z]) = (s ++ [z]) ++ (t2 ++ [z]) by simp] at hcontra
        rw [show i = (s ++ [z]).length + (i - (s.length + 1)) by simp; omega] at hcontra
        rw [getD_append_right_add (s ++ [z]) (t2 ++ [z]) (i - (s.length + 1)) ""] at hcontra
        have hmem2 : (t2 ++ [z]).getD (i - (s.length + 1)) "" ∈ t2 ++ [z] := by
          apply getD_mem
          simp at hi ⊢
          omega
        rw [hcontra] at hmem2
        exact htpkg hmem2
      rw [hskip2]
      refine ⟨s ++ z :: t2, ?_, ?_⟩
      · rw [show s ++ z :: (t2 ++ [z]) = (s ++ z :: t2) ++ [z] by simp]
        rw [show s.length + ((t2 ++ [z]).length + 1) - 1 = (s ++ z :: t2).length by simp]
        simp only [Option.map_some']
        rw [List.take_left]
      · rw [herase]
        exact List.Perm.append_left s (List.perm_append_singleton z t2).symm

/-- The outer removal loop under the at-most-one-occurrence hypothesis:
success, counts never increase, every removed name is absent. -/
theorem applyRemovals_spec :
    ∀ (rs : List String) (l : List String),
    (∀ r ∈ rs, l.count r ≤ 1) →
    ∃ m, applyRemovals l rs = some m ∧ (∀ q : String, m.count q ≤ l.count q) ∧
      (∀ r ∈ rs, r ∉ m) := by
  intro rs
  induction rs with
  | nil =>
    intro l _
    exact ⟨l, rfl, fun q => Nat.le_refl _, fun r hr => absurd hr (List.not_mem_nil r)⟩
  | cons r rest ih =>
    intro l h
    obtain ⟨m1, hm1, hperm⟩ := removeOnePass_perm r l (h r (List.mem_cons_self r rest))
    have hcount : ∀ q, m1.count q ≤ l.count q := by
      intro q
      rw [hperm.count_eq q]
      by_cases hq : q = r
      · subst hq
        rw [List.count_erase_self]
        omega
      · rw [List.count_erase_of_ne hq]
    have hr0 : m1.count r = 0 := by
      rw [hperm.count_eq r, List.count_erase_self]
      have := h r (List.mem_cons_self r rest)
      omega
    obtain ⟨m, hm2, hc2, habs⟩ :=
      ih m1 (fun r2 hr2 => le_trans (hcount r2) (h r2 (List.mem_cons_of_mem r hr2)))
    refine ⟨m, ?_, fun q => le_trans (hc2 q) (hcount q), ?_⟩
    · unfold applyRemovals
      rw [hm1]
      exact hm2
    · intro r2 hr2
      cases hr2 with
      | head =>
        have hz : m.count r = 0 := Nat.le_zero.mp (hr0 ▸ hc2 r)
        exact List.count_eq_zero.mp hz
      | tail _ hm3 => exact habs r2 hm3

/-- In build-less mode the subpackage loop runs no pipeline and never
consults the conditional: every subpackage gets its mkdir and lint enqueue. -/
theorem subpackagesPhase_buildless (ev : String → Except String Bool)
    (subs : List Subpackage) :
    subpackagesPhase true ev subs =
      Except.ok (subs.map (fun sp => Action.mkdirOut sp.Name),
                 subs.map (fun sp => sp.Name)) := by
  induction subs with
  | nil => rfl
  | cons sp rest ih => simp [subpackagesPhase, ih]

/-- In build-less mode the SBOM loop never consults the conditional. -/
theorem sbomSubsPhase_buildless (ev : String → Except String Bool)
    (subs : List Subpackage) :
    sbomSubsPhase true ev subs = Except.ok (subs.map (fun sp => Action.sbom sp.Name)) := by
  induction subs with
  | nil => rfl
  | cons sp rest ih => simp [sbomSubsPhase, ih]

/-- A successful lint loop lints exactly the queued names in order. -/
theorem lintPhase_ok_shape (f : Bool) (o : String → LintResult) :
    ∀ (q : List String) (tr : List Action),
    lintPhase f o q = Except.ok tr → tr = q.map Action.lintRun := by
  intro q
  induction q with
  | nil =>
    intro tr h
    cases h
    rfl
  | cons n rest ih =>
    intro tr h
    unfold lintPhase at h
    rcases hE : (o n).execErr with _ | e
    · rcases hI : lintInnerErr f (o n).warnings with _ | w
      · rcases hR : lintPhase f o rest with e2 | tr0
        · simp [hE, hI, hR] at h
        · simp only [hE, hI, hR] at h
          injection h with h2
          subst h2
          rw [List.map_cons, ih tr0 hR]
      · simp [hE, hI] at h
    · simp [hE] at h

/-- A successful emit loop produces only emit actions and contains the emit
of every subpackage whose conditional evaluates to true. -/
theorem emitSubsPhase_spec (ev : String → Except String Bool) :
    ∀ (subs : List Subpackage) (tr : List Action),
    emitSubsPhase ev subs = Except.ok tr →
    ((∀ a ∈ tr, ∃ n, a = Action.emit n) ∧
     (∀ sp ∈ subs, ShouldRun ev sp = Except.ok true → Action.emit sp.Name ∈ tr)) := by
  intro subs
  induction subs with
  | nil =>
    intro tr h
    cases h
    exact ⟨fun a ha => absurd ha (List.not_mem_nil a),
           fun sp hsp => absurd hsp (List.not_mem_nil sp)⟩
  | cons sp rest ih =>
    intro tr h
    unfold emitSubsPhase at h
    rcases hS : ShouldRun ev sp with e | b
    · simp [hS] at h
    · rcases b with _ | _
      · simp only [hS] at h
        obtain ⟨h1, h2⟩ := ih tr h
        refine ⟨h1, ?_⟩
        intro sp2 hsp2 hrun
        cases hsp2 with
        | head =>
          rw [hS] at hrun
          cases hrun
        | tail _ hm => exact h2 sp2 hm hrun
      · rcases hR : emitSubsPhase ev rest with e2 | tr0
        · simp [hS, hR] at h
        · simp only [hS, hR] at h
          injection h with h3
          subst h3
          obtain ⟨h1, h2⟩ := ih tr0 hR
          constructor
          · intro a ha
            cases ha with
            | head => exact ⟨sp.Name, rfl⟩
            | tail _ hm => exact h1 a hm
          · intro sp2 hsp2 hrun
            cases hsp2 with
            | head => exact List.mem_cons_self _ _
            | tail _ hm => exact List.mem_cons_of_mem _ (h2 sp2 hm hrun)

/-- A successful index phase produces only generateIndex actions, and
produces one exactly when GenerateIndex is set. -/
theorem indexPhase_spec (b : Build) (ev : String → Except String Bool)
    (tr : List Action) (h : indexPhase b ev = Except.ok tr) :
    (∀ a ∈ tr, ∃ fl, a = Action.generateIndex fl) ∧
    (b.GenerateIndex = true → ∃ fl, Action.generateIndex fl ∈ tr) := by
  unfold indexPhase at h
  rcases hG : b.GenerateIndex with _ | _
  · rw [hG] at h
    simp only [Bool.false_eq_true, if_false] at h
    cases h
    exact ⟨fun a ha => absurd ha (List.not_mem_nil a),
           fun hc => absurd hc (by simp [hG])⟩
  · rw [hG] at h
    simp only [if_true] at h
    rcases hF : indexSubsFiles (packageDir b) b.Configuration.Package.Version
        b.Configuration.Package.Epoch ev b.Configuration.Subpackages with e | fl
    · simp [hF] at h
    · simp only [hF] at h
      cases h
      constructor
      · intro a ha
        cases ha with
        | head => exact ⟨_, rfl⟩
        | tail _ hm => exact absurd hm (List.not_mem_nil a)
      · intro _
        exact ⟨_, List.mem_cons_self _ _⟩

/-- Elements of the pre-phase trace. -/
theorem preTrace_shape (b : Build) :
    ∀ a ∈ preTrace b,
      a = Action.populateWorkspace ∨ a = Action.mkdirOut b.Configuration.Package.Name := by
  intro a ha
  unfold preTrace at ha
  rcases List.mem_append.mp ha with h1 | h2
  · rcases hE : b.EmptyWorkspace with _ | _
    · rw [hE] at h1
      simp at h1
      exact Or.inl h1
    · rw [hE] at h1
      simp at h1
  · simp at h2
    exact Or.inr h2

/-- The container path is empty in build-less mode. -/
theorem containerTrace_buildless (b : Build) (h : IsBuildLess b = true) :
    containerTrace b = [] := by
  simp [containerTrace, h]

/-- No main-package lint target in build-less mode. -/
theorem mainLintQueue_buildless (b : Build) (h : IsBuildLess b = true) :
    mainLintQueue b = [] := by
  simp [mainLintQueue, h]

/-- No guest cleanup in build-less mode. -/
theorem cleanupTrace_buildless (b : Build) (h : IsBuildLess b = true) :
    cleanupTrace b = [Action.removeWorkspaceDir] := by
  simp [cleanupTrace, h]

/-- No pod teardown in build-less mode. -/
theorem teardownTrace_buildless (b : Build) (h : IsBuildLess b = true) :
    teardownTrace b = [] := by
  simp [teardownTrace, h]

/-!
Claim theorems.
-/

/-- C1 (amended): when the build is not build-less, all five phases
(pipeline, lint enqueue, SBOM, emit, index) gate a subpackage by the same
if-conditional decision ShouldRun; when the build IS build-less the phases
disagree: emit and index still consult ShouldRun, while the lint enqueue
and the SBOM phase treat every subpackage as in-scope and the pipeline
phase skips every subpackage. -/
theorem c1_phase_decisions (ev : String → Except String Bool) (sp : Subpackage) :
    (subPipelineDecision false ev sp = ShouldRun ev sp ∧
     lintEnqueueDecision false ev sp = ShouldRun ev sp ∧
     sbomDecision false ev sp = ShouldRun ev sp ∧
     emitDecision false ev sp = ShouldRun ev sp ∧
     indexDecision false ev sp = ShouldRun ev sp) ∧
    (emitDecision true ev sp = ShouldRun ev sp ∧
     indexDecision true ev sp = ShouldRun ev sp ∧
     lintEnqueueDecision true ev sp = Except.ok true ∧
     sbomDecision true ev sp = Except.ok true ∧
     subPipelineDecision true ev sp = Except.ok false) :=
  ⟨⟨rfl, rfl, rfl, rfl, rfl⟩, ⟨rfl, rfl, rfl, rfl, rfl⟩⟩

/-- C1 counterexample: in a build-less build whose single subpackage s has
the if-expression c evaluating to false, BuildPackage still generates the
SBOM of s and still lints s, yet does not emit s - so the phases do NOT
treat s consistently, refuting the claim for build-less builds. -/
theorem c1_counterexample :
    IsBuildLess bC1 = true ∧
    BuildPackage bC1 evFalse lintQuiet = Except.ok c1Trace ∧
    Action.sbom "s" ∈ c1Trace ∧
    Action.lintRun "s" ∈ c1Trace ∧
    Action.emit "s" ∉ c1Trace := by decide

/-- C3: with FailOnLintWarning set, a reported lint issue fails the build at
the end of that lint run, but the returned error wraps err (nil in that
branch) instead of innerErr, so it does not identify the warning; moreover
innerErr retains the LAST reported warning, not the first.  Without the
flag the issues are only logged and linting succeeds.  An execution error
of the linter is fatal regardless of the flag, with the wrapped message. -/
theorem c3_lint_routing :
    lintPhase true lintWarn2 ["p"] = Except.error (BuildErr.lintWarning none) ∧
    lintInnerErr true ["w1", "w2"] = some "w2" ∧
    lintPhase false lintWarn2 ["p"] = Except.ok [Action.lintRun "p"] ∧
    lintPhase true lintExecFail ["p"] =
      Except.error (BuildErr.lintError "package linter error: boom") ∧
    lintPhase false lintExecFail ["p"] =
      Except.error (BuildErr.lintError "package linter error: boom") := by decide

/-- C4 (amended): provided every name in the removal list occurs at most
once in the package list extended by the additions, ApplyBuildOption
succeeds, the resulting package list is a subset of the extended list, and
every removed name is absent from it.  (Without that proviso the removal
loop indexes out of range - see the counterexample.) -/
theorem c4_removal (vars : String → Option String) (pkgs : List String) (bo : BuildOption)
    (h : ∀ r ∈ bo.Remove, (pkgs ++ bo.Add).count r ≤ 1) :
    ∃ res, ApplyBuildOption vars pkgs bo = some res ∧
      (∀ x ∈ res.2, x ∈ pkgs ++ bo.Add) ∧
      (∀ r ∈ bo.Remove, r ∉ res.2) := by
  obtain ⟨m, hm, hc, habs⟩ := applyRemovals_spec bo.Remove (pkgs ++ bo.Add) h
  refine ⟨(mergeVars vars bo.Vars, m), ?_, ?_, habs⟩
  · simp only [ApplyBuildOption]
    rw [hm]
    rfl
  · intro x hx
    by_contra hnx
    have h0 : (pkgs ++ bo.Add).count x = 0 := List.count_eq_zero.mpr hnx
    have h1 : m.count x = 0 := Nat.le_zero.mp (h0 ▸ hc x)
    exact (List.count_eq_zero.mp h1) hx

/-- Witness for C4: initial packages a and b, option adding c and removing
b (each removed name occurs once). -/
theorem c4_removal_witness :
    (∀ r ∈ (["b"] : List String), (["a", "b"] ++ ["c"]).count r ≤ 1) ∧
    (∃ res, ApplyBuildOption (fun _ => none) ["a", "b"]
        { Vars := [], Add := ["c"], Remove := ["b"] } = some res ∧
      (∀ x ∈ res.2, x ∈ ["a", "b"] ++ ["c"]) ∧
      (∀ r ∈ (["b"] : List String), r ∉ res.2)) :=
  ⟨by decide,
   c4_removal (fun _ => none) ["a", "b"] { Vars := [], Add := ["c"], Remove := ["b"] }
     (by decide)⟩

/-- C4 counterexample: removing a from the package list a, a panics (index
out of range): the range loop truncates the local slice while still
visiting the positions of the original one, so applying a removal list is
NOT failure-free and the claim fails at this input. -/
theorem c4_counterexample :
    removeOnePass "a" ["a", "a"] = none ∧
    (ApplyBuildOption (fun _ => none) ["a", "a"]
      { Vars := [], Add := [], Remove := ["a"] }).isNone = true := by
  exact ⟨by decide, by decide⟩

/-- C10: a subpackage with an empty if-field is accepted by ShouldRun
without consulting the evaluator (any two evaluators agree), and every
phase gate that consults the conditional treats it as in-scope; the
pipeline gate does so whenever the pipeline phase runs at all (non
build-less). -/
theorem c10_empty_if (ev ev2 : String → Except String Bool) (sp : Subpackage)
    (h : sp.If = "") :
    ShouldRun ev sp = Except.ok true ∧
    ShouldRun ev sp = ShouldRun ev2 sp ∧
    subPipelineDecision false ev sp = Except.ok true ∧
    sbomDecision true ev sp = Except.ok true ∧
    sbomDecision false ev sp = Except.ok true ∧
    lintEnqueueDecision true ev sp = Except.ok true ∧
    lintEnqueueDecision false ev sp = Except.ok true ∧
    emitDecision true ev sp = Except.ok true ∧
    emitDecision false ev sp = Except.ok true ∧
    indexDecision true ev sp = Except.ok true ∧
    indexDecision false ev sp = Except.ok true := by
  have hs : ∀ e : String → Except String Bool, ShouldRun e sp = Except.ok true := by
    intro e
    unfold ShouldRun
    rw [if_pos h]
  refine ⟨hs ev, (hs ev).trans (hs ev2).symm, ?_, ?_, ?_, ?_, ?_, ?_, ?_, ?_, ?_⟩ <;>
    simp [subPipelineDecision, sbomDecision, lintEnqueueDecision, emitDecision,
      indexDecision, hs]

/-- Witness for C10 at a concrete subpackage with an empty if-field. -/
theorem c10_witness :
    ShouldRun evFalse { Name := "s", If := "", Pipeline := [] } = Except.ok true ∧
    ShouldRun evFalse { Name := "s", If := "", Pipeline := [] } =
      ShouldRun evTrue { Name := "s", If := "", Pipeline := [] } ∧
    subPipelineDecision false evFalse { Name := "s", If := "", Pipeline := [] } = Except.ok true ∧
    sbomDecision true evFalse { Name := "s", If := "", Pipeline := [] } = Except.ok true ∧
    sbomDecision false evFalse { Name := "s", If := "", Pipeline := [] } = Except.ok true ∧
    lintEnqueueDecision true evFalse { Name := "s", If := "", Pipeline := [] } = Except.ok true ∧
    lintEnqueueDecision false evFalse { Name := "s", If := "", Pipeline := [] } = Except.ok true ∧
    emitDecision true evFalse { Name := "s", If := "", Pipeline := [] } = Except.ok true ∧
    emitDecision false evFalse { Name := "s", If := "", Pipeline := [] } = Except.ok true ∧
    indexDecision true evFalse { Name := "s", If := "", Pipeline := [] } = Except.ok true ∧
    indexDecision false evFalse { Name := "s", If := "", Pipeline := [] } = Except.ok true :=
  c10_empty_if evFalse evTrue { Name := "s", If := "", Pipeline := [] } rfl

/-- C8: construction returns the skip-this-arch sentinel exactly when the
target-architecture list is non-empty, is not the single-element list all,
and does not contain the current APK arch string; with the list exactly
all the construction only warns and cannot return the sentinel. -/
theorem c8_skip_arch (cfg : Configuration) (apk : String) (envEpochRaw : Option String)
    (parseEpoch : String → Option Int) (configuredEpoch : Int) (runnerUsable : Bool)
    (enabled : List String) :
    (New cfg apk envEpochRaw parseEpoch configuredEpoch runnerUsable enabled =
        Except.error NewErr.skipThisArch ↔
      (cfg.Package.TargetArchitecture ≠ [] ∧ cfg.Package.TargetArchitecture ≠ ["all"] ∧
        apk ∉ cfg.Package.TargetArchitecture)) ∧
    targetArchWarns ["all"] = true ∧
    New { cfg with Package := { cfg.Package with TargetArchitecture := ["all"] } } apk
        envEpochRaw parseEpoch configuredEpoch runnerUsable enabled ≠
      Except.error NewErr.skipThisArch := by
  refine ⟨?_, by decide, ?_⟩
  · unfold New
    by_cases hg : archGate cfg.Package.TargetArchitecture apk = true
    · rw [if_pos hg]
      simp [(archGate_iff _ _).mp hg]
    · rw [if_neg hg]
      constructor
      · intro h
        exact absurd h (newRest_ne_skip cfg envEpochRaw parseEpoch configuredEpoch
          runnerUsable enabled)
      · intro h
        exact absurd ((archGate_iff _ _).mpr h) hg
  · have hgate : archGate ["all"] apk = false := rfl
    unfold New
    rw [hgate]
    simp only [Bool.false_eq_true, if_false]
    exact newRest_ne_skip _ envEpochRaw parseEpoch configuredEpoch runnerUsable enabled

/-- C6: with a non-empty CacheDir and a gs:// source, exactly the listed
objects accepted by the membership map are downloaded to staging; of the
staged files exactly the digest-named ones are copied into CacheDir with
their permission bits preserved; and the staging directory is removed. -/
theorem c6_cache_filter (cd cs : String) (listing : List String) (cmm : String → Bool)
    (sm : String → Nat) (hcd : cd ≠ "") (hcs : strStarts "gs://" cs = true) :
    (PopulateCache cd cs listing cmm sm).downloaded = listing.filter cmm ∧
    (∀ n, n ∈ (PopulateCache cd cs listing cmm sm).downloaded ↔
      n ∈ listing ∧ cmm n = true) ∧
    (PopulateCache cd cs listing cmm sm).copied =
      ((listing.filter cmm).filter digestNamed).map
        (fun n => (cd ++ "/" ++ n, sm n)) ∧
    (PopulateCache cd cs listing cmm sm).stagingRemoved = true := by
  unfold PopulateCache fetchBucket
  rw [if_neg hcd, if_pos hcs]
  refine ⟨rfl, ?_, rfl, rfl⟩
  intro n
  simp [List.mem_filter]

/-- Witness for C6: the scenario of the spec (membership p/sha256:aaa, the
bucket also lists p/sha256:bbb and p/README). -/
theorem c6_witness :
    ("cache" ≠ "" ∧ strStarts "gs://" "gs://b/p" = true) ∧
    (PopulateCache "cache" "gs://b/p" ["p/sha256:aaa", "p/sha256:bbb", "p/README"]
        (fun n => n == "p/sha256:aaa" || n == "p/README") (fun _ => 420)).downloaded =
      (["p/sha256:aaa", "p/sha256:bbb", "p/README"]).filter
        (fun n => n == "p/sha256:aaa" || n == "p/README") ∧
    (PopulateCache "cache" "gs://b/p" ["p/sha256:aaa", "p/sha256:bbb", "p/README"]
        (fun n => n == "p/sha256:aaa" || n == "p/README") (fun _ => 420)).copied =
      (((["p/sha256:aaa", "p/sha256:bbb", "p/README"]).filter
          (fun n => n == "p/sha256:aaa" || n == "p/README")).filter digestNamed).map
        (fun n => ("cache" ++ "/" ++ n, 420)) ∧
    (PopulateCache "cache" "gs://b/p" ["p/sha256:aaa", "p/sha256:bbb", "p/README"]
        (fun n => n == "p/sha256:aaa" || n == "p/README") (fun _ => 420)).stagingRemoved =
      true :=
  ⟨⟨by decide, by decide⟩,
   (c6_cache_filter "cache" "gs://b/p" _ _ _ (by decide) (by decide)).1,
   (c6_cache_filter "cache" "gs://b/p" _ _ _ (by decide) (by decide)).2.2.1,
   (c6_cache_filter "cache" "gs://b/p" _ _ _ (by decide) (by decide)).2.2.2⟩

/-- C5 (amended): in a non-build-less assembled configuration the
SOURCE_DATE_EPOCH environment entry equals the resolved epoch integer
PROVIDED the recipe environment does not itself define SOURCE_DATE_EPOCH
(recipe entries are merged over it and would win); and at construction a
SOURCE_DATE_EPOCH from the process environment wins over the configured
value. -/
theorem c5_source_date_epoch :
    (∀ (b : Build) (cacheStat : Option Bool) (rp : String) (rf : Bool),
      IsBuildLess b = false →
      (∀ kv ∈ b.Configuration.EnvEnvironment, kv.1 ≠ "SOURCE_DATE_EPOCH") →
      (buildWorkspaceConfig b cacheStat rp rf).1.Environment "SOURCE_DATE_EPOCH" =
        some (toString b.SourceDateEpoch)) ∧
    (∀ t c : Int, resolveSourceDateEpoch (some t) c = t) ∧
    (∀ c : Int, resolveSourceDateEpoch none c = c) := by
  refine ⟨?_, fun t c => rfl, fun c => rfl⟩
  intro b cacheStat rp rf hbl henv
  unfold buildWorkspaceConfig
  rw [hbl]
  simp only [Bool.false_eq_true, if_false]
  rw [mergeVars_lookup_of_absent _ _ _ henv]
  simp

/-- Witness for C5 at a concrete non-build-less state. -/
theorem c5_witness :
    (IsBuildLess bCacheFail = false ∧
      (∀ kv ∈ bCacheFail.Configuration.EnvEnvironment, kv.1 ≠ "SOURCE_DATE_EPOCH")) ∧
    (buildWorkspaceConfig bCacheFail (some true) "/c" false).1.Environment
        "SOURCE_DATE_EPOCH" = some (toString bCacheFail.SourceDateEpoch) ∧
    resolveSourceDateEpoch (some 7) 3 = 7 :=
  ⟨⟨by decide, by decide⟩,
   c5_source_date_epoch.1 bCacheFail (some true) "/c" false (by decide) (by decide),
   c5_source_date_epoch.2.1 7 3⟩

/-- C5 counterexample: a recipe whose environment section itself sets
SOURCE_DATE_EPOCH overrides the epoch entry of the assembled configuration,
so the claimed equality fails on bEnvClash (epoch 0, entry banana). -/
theorem c5_counterexample :
    IsBuildLess bEnvClash = false ∧
    (buildWorkspaceConfig bEnvClash (some true) "/c" false).1.Environment
        "SOURCE_DATE_EPOCH" = some "banana" ∧
    ¬((buildWorkspaceConfig bEnvClash (some true) "/c" false).1.Environment
        "SOURCE_DATE_EPOCH" = some (toString bEnvClash.SourceDateEpoch)) := by decide

/-- C9 (amended): when CacheDir is set, exists and is a directory the cache
mount is always added with the realpath RESULT string as source (on
resolver failure the failure is logged and whatever string the resolver
returned - not necessarily the logical CacheDir - becomes the source); when
CacheDir exists but is not a directory the mount is skipped and logged. -/
theorem c9_cache_mount :
    (∀ (b : Build) (rp : String) (rf : Bool),
      IsBuildLess b = false → b.CacheDir ≠ "" →
      ((rp, DefaultCacheDir) ∈ (buildWorkspaceConfig b (some true) rp rf).1.Mounts ∧
       (rf = true →
         "could not resolve path for --cache-dir" ∈
           (buildWorkspaceConfig b (some true) rp rf).2))) ∧
    (∀ (b : Build) (rp : String) (rf : Bool),
      IsBuildLess b = false → b.CacheDir ≠ "" →
      ((∀ src, (src, DefaultCacheDir) ∉
          (buildWorkspaceConfig b (some false) rp rf).1.Mounts) ∧
       ("--cache-dir " ++ b.CacheDir ++ " not a dir; skipping") ∈
          (buildWorkspaceConfig b (some false) rp rf).2)) := by
  constructor
  · intro b rp rf hbl hcd
    unfold buildWorkspaceConfig
    rw [hbl]
    simp only [Bool.false_eq_true, if_false]
    rw [if_neg hcd]
    constructor
    · simp
    · intro hrf
      simp [hrf]
  · intro b rp rf hbl hcd
    unfold buildWorkspaceConfig
    rw [hbl]
    simp only [Bool.false_eq_true, if_false]
    rw [if_neg hcd]
    constructor
    · intro src hmem
      simp [DefaultWorkspaceDir, DefaultResolvConfPath, DefaultCacheDir] at hmem
    · simp

/-- Witness for C9 at a concrete non-build-less state with CacheDir c. -/
theorem c9_witness :
    (IsBuildLess bCacheFail = false ∧ bCacheFail.CacheDir ≠ "") ∧
    ("/real/c", DefaultCacheDir) ∈
      (buildWorkspaceConfig bCacheFail (some true) "/real/c" false).1.Mounts ∧
    ("--cache-dir " ++ bCacheFail.CacheDir ++ " not a dir; skipping") ∈
      (buildWorkspaceConfig bCacheFail (some false) "/real/c" false).2 :=
  ⟨⟨by decide, by decide⟩,
   (c9_cache_mount.1 bCacheFail "/real/c" false (by decide) (by decide)).1,
   (c9_cache_mount.2 bCacheFail "/real/c" false (by decide) (by decide)).2⟩

/-- C9 counterexample: when the realpath call fails having returned the
empty string, the mount is added with the empty string - not the logical
CacheDir c - as its source, refuting the claimed use of the logical path. -/
theorem c9_counterexample :
    bCacheFail.CacheDir = "c" ∧
    ("", DefaultCacheDir) ∈
      (buildWorkspaceConfig bCacheFail (some true) "" true).1.Mounts ∧
    ("c", DefaultCacheDir) ∉
      (buildWorkspaceConfig bCacheFail (some true) "" true).1.Mounts := by decide

/-- C7: RetrieveWorkspace succeeds without touching the workspace on a nil
stream; an entry with an unhandled tar type flag fails with the
unexpected-tar-type error (so a successfully retrieved stream contains only
directory, regular, symlink and hard-link entries); and a symlink entry
whose target already exists as a symlink with an identical link name is
skipped without error and without modification. -/
theorem c7_retrieve_workspace :
    (∀ fs : FS, RetrieveWorkspace none fs = Except.ok fs) ∧
    (∀ (fs : FS) (hdr : TarHeader) (rest : List TarHeader) (c : Nat),
      hdr.typeflag = TarType.other c →
      RetrieveWorkspace (some (hdr :: rest)) fs =
        Except.error ("unexpected tar type " ++ toString c ++ " for " ++ hdr.name)) ∧
    (∀ (fs fs2 : FS) (es : List TarHeader),
      RetrieveWorkspace (some es) fs = Except.ok fs2 →
      ∀ h ∈ es, handledTarType h.typeflag = true) ∧
    (∀ (fs : FS) (hdr : TarHeader),
      hdr.typeflag = TarType.symlink →
      fsReadlink fs hdr.name = Except.ok hdr.linkname →
      processEntry fs hdr = Except.ok fs) := by
  refine ⟨fun fs => rfl, ?_, ?_, ?_⟩
  · intro fs hdr rest c h
    simp [RetrieveWorkspace, processEntries, processEntry, h]
  · intro fs fs2 es
    induction es generalizing fs with
    | nil => intro _ h hmem; cases hmem
    | cons e rest ih =>
      intro hall h0 hmem
      unfold RetrieveWorkspace processEntries at hall
      rcases hpe : processEntry fs e with he | fs3
      · rw [hpe] at hall; cases hall
      · rw [hpe] at hall
        cases hmem with
        | head => exact processEntry_ok_handled fs fs3 e hpe
        | tail _ hmem2 => exact ih fs3 hall h0 hmem2
  · intro fs hdr h hrl
    unfold processEntry
    rw [h, hrl]
    simp

/-- C2 (amended): in a build-less build no guest is built, no pod is
started or terminated and the cache is not populated, and SBOM generation
(all subpackages and the main package), emission (main package, and each
subpackage whose if-decision is true) and index generation (when
GenerateIndex is set) still run - but, contrary to the claim, lint still
runs for every subpackage (only the main package is not linted, as it is
never enqueued). -/
theorem c2_buildless (b : Build) (ev : String → Except String Bool)
    (lintO : String → LintResult) (tr : List Action)
    (hbl : IsBuildLess b = true) (h : BuildPackage b ev lintO = Except.ok tr) :
    Action.buildGuest ∉ tr ∧ Action.startPod ∉ tr ∧ Action.populateCache ∉ tr ∧
    Action.terminatePod ∉ tr ∧
    (∀ sp ∈ b.Configuration.Subpackages, Action.lintRun sp.Name ∈ tr) ∧
    (∀ sp ∈ b.Configuration.Subpackages, Action.sbom sp.Name ∈ tr) ∧
    Action.sbom b.Configuration.Package.Name ∈ tr ∧
    Action.emit b.Configuration.Package.Name ∈ tr ∧
    (∀ sp ∈ b.Configuration.Subpackages, ShouldRun ev sp = Except.ok true →
      Action.emit sp.Name ∈ tr) ∧
    (b.GenerateIndex = true → ∃ fl, Action.generateIndex fl ∈ tr) := by
  unfold BuildPackage at h
  rw [hbl, subpackagesPhase_buildless ev b.Configuration.Subpackages] at h
  dsimp only [] at h
  rw [mainLintQueue_buildless b hbl, List.nil_append] at h
  rcases hlint : lintPhase b.FailOnLintWarning lintO
      (List.map (fun sp => sp.Name) b.Configuration.Subpackages) with e | lintTr
  · rw [hlint] at h
    dsimp only [] at h
    cases h
  · rw [hlint] at h
    dsimp only [] at h
    rw [sbomSubsPhase_buildless ev b.Configuration.Subpackages] at h
    dsimp only [] at h
    rcases hemit : emitSubsPhase ev b.Configuration.Subpackages with e | emitTr
    · rw [hemit] at h
      dsimp only [] at h
      cases h
    · rw [hemit] at h
      dsimp only [] at h
      rcases hidx : indexPhase b ev with e | idxTr
      · rw [hidx] at h
        dsimp only [] at h
        cases h
      · rw [hidx] at h
        dsimp only [] at h
        injection h with htr
        subst htr
        have hlsh := lintPhase_ok_shape _ _ _ _ hlint
        subst hlsh
        obtain ⟨hem1, hem2⟩ := emitSubsPhase_spec ev _ emitTr hemit
        obtain ⟨hidx1, hidx2⟩ := indexPhase_spec b ev idxTr hidx
        rw [containerTrace_buildless b hbl, cleanupTrace_buildless b hbl,
          teardownTrace_buildless b hbl]
        simp only [List.append_nil]
        refine ⟨?_, ?_, ?_, ?_, ?_, ?_, ?_, ?_, ?_, ?_⟩
        · intro hmem
          simp at hmem
          rcases hmem with hmem | hmem | hmem
          · rcases preTrace_shape b _ hmem with h9 | h9 <;> simp at h9
          · obtain ⟨n2, hn⟩ := hem1 _ hmem
            simp at hn
          · obtain ⟨fl, hn⟩ := hidx1 _ hmem
            simp at hn
        · intro hmem
          simp at hmem
          rcases hmem with hmem | hmem | hmem
          · rcases preTrace_shape b _ hmem with h9 | h9 <;> simp at h9
          · obtain ⟨n2, hn⟩ := hem1 _ hmem
            simp at hn
          · obtain ⟨fl, hn⟩ := hidx1 _ hmem
            simp at hn
        · intro hmem
          simp at hmem
          rcases hmem with hmem | hmem | hmem
          · rcases preTrace_shape b _ hmem with h9 | h9 <;> simp at h9
          · obtain ⟨n2, hn⟩ := hem1 _ hmem
            simp at hn
          · obtain ⟨fl, hn⟩ := hidx1 _ hmem
            simp at hn
        · intro hmem
          simp at hmem
          rcases hmem with hmem | hmem | hmem
          · rcases preTrace_shape b _ hmem with h9 | h9 <;> simp at h9
          · obtain ⟨n2, hn⟩ := hem1 _ hmem
            simp at hn
          · obtain ⟨fl, hn⟩ := hidx1 _ hmem
            simp at hn
        · intro sp hsp
          exact List.mem_append_left _ (List.mem_append_left _ (List.mem_append_left _
            (List.mem_append_left _ (List.mem_append_right _
              (List.mem_cons_of_mem _ (List.mem_map_of_mem _
                (List.mem_map_of_mem _ hsp)))))))
        · intro sp hsp
          exact List.mem_append_left _ (List.mem_append_left _ (List.mem_append_left _
            (List.mem_append_right _ (List.mem_append_left _
              (List.mem_map_of_mem _ hsp)))))
        · exact List.mem_append_left _ (List.mem_append_left _ (List.mem_append_left _
            (List.mem_append_right _ (List.mem_append_right _
              (List.mem_singleton.mpr rfl)))))
        · exact List.mem_append_left _ (List.mem_append_left _
            (List.mem_append_right _ (List.mem_cons_self _ _)))
        · intro sp hsp hrun
          exact List.mem_append_left _ (List.mem_append_left _
            (List.mem_append_right _ (List.mem_cons_of_mem _ (hem2 sp hsp hrun))))
        · intro hG
          obtain ⟨fl, hm⟩ := hidx2 hG
          exact ⟨fl, List.mem_append_right _ hm⟩

/-- Witness for C2 at the concrete build-less state bBL. -/
theorem c2_buildless_witness :
    (IsBuildLess bBL = true ∧ BuildPackage bBL evFalse lintQuiet = Except.ok c2Trace) ∧
    Action.buildGuest ∉ c2Trace ∧ Action.startPod ∉ c2Trace ∧
    Action.populateCache ∉ c2Trace ∧ Action.terminatePod ∉ c2Trace ∧
    (∀ sp ∈ bBL.Configuration.Subpackages, Action.lintRun sp.Name ∈ c2Trace) ∧
    (∀ sp ∈ bBL.Configuration.Subpackages, Action.sbom sp.Name ∈ c2Trace) ∧
    Action.sbom bBL.Configuration.Package.Name ∈ c2Trace ∧
    Action.emit bBL.Configuration.Package.Name ∈ c2Trace ∧
    (∀ sp ∈ bBL.Configuration.Subpackages, ShouldRun evFalse sp = Except.ok true →
      Action.emit sp.Name ∈ c2Trace) ∧
    (bBL.GenerateIndex = true → ∃ fl, Action.generateIndex fl ∈ c2Trace) :=
  ⟨⟨by decide, by decide⟩,
   c2_buildless bBL evFalse lintQuiet c2Trace (by decide) (by decide)⟩

/-- C2 counterexample: in the build-less build bBL with one subpackage s,
the lint phase DOES run (for s), refuting the claim that a build-less
BuildPackage runs no lint. -/
theorem c2_counterexample :
    IsBuildLess bBL = true ∧
    BuildPackage bBL evFalse lintQuiet = Except.ok c2Trace ∧
    Action.lintRun "s" ∈ c2Trace ∧
    Action.buildGuest ∉ c2Trace ∧ Action.startPod ∉ c2Trace ∧
    Action.populateCache ∉ c2Trace := by decide

/-- Witness for C7: the nil stream, a concrete unhandled entry, and a
matching pre-existing symlink. -/
theorem c7_witness :
    RetrieveWorkspace none fs0 = Except.ok fs0 ∧
    RetrieveWorkspace (some [hdrBad]) fs0 =
      Except.error ("unexpected tar type " ++ toString 103 ++ " for " ++ hdrBad.name) ∧
    processEntry fsSym hdrSym = Except.ok fsSym :=
  ⟨c7_retrieve_workspace.1 fs0,
   c7_retrieve_workspace.2.1 fs0 hdrBad [] 103 rfl,
   c7_retrieve_workspace.2.2.2 fsSym hdrSym rfl (by decide)⟩

end Melange
